import Mathlib

/-!
Verification of the tagpro_analysis event decoder (`tp_raw_event_reader.py`).

The Python source is shallowly embedded: bytes become `Nat` (each `< 256` in
real payloads, though nothing here needs that), the bit cursor becomes a
`LogReader` structure threaded explicitly, and each loop of the source becomes
either structural recursion or a fuel-indexed helper together with a proved
unfolding equation that matches the source loop step for step.
-/

/-- The bit cursor of the Python class `LogReader`: an immutable byte buffer
`data` and a bit position `pos`. -/
structure LogReader where
  data : List Nat
  pos : Nat
deriving DecidableEq, Repr

namespace TagPro

/-- `LogReader.end`: `self.pos >> 3 >= len(self.data)`.  (`end` is a Lean
keyword, hence the trailing underscore.) -/
def end_ (r : LogReader) : Bool :=
  decide (r.data.length ≤ r.pos >>> 3)

/-- `LogReader.read_bool`:
`result = 0 if self.end() else (self.data[self.pos >> 3] >> (7 - (self.pos & 7))) & 1`
followed by `self.pos += 1`.  The value together with the advanced cursor. -/
def read_bool (r : LogReader) : Nat × LogReader :=
  (if end_ r then 0 else (r.data.getD (r.pos >>> 3) 0 >>> (7 - (r.pos &&& 7))) &&& 1,
   ⟨r.data, r.pos + 1⟩)

/-- The loop of `LogReader.read_fixed`, with the accumulator explicit:
`result = (result << 1) | self.read_bool()` executed `bits` times. -/
def readFixedAux : Nat → Nat → LogReader → Nat × LogReader
  | 0, acc, r => (acc, r)
  | bits + 1, acc, r =>
    readFixedAux bits ((acc <<< 1) ||| (read_bool r).1) (read_bool r).2

/-- `LogReader.read_fixed(bits)`. -/
def read_fixed (bits : Nat) (r : LogReader) : Nat × LogReader :=
  readFixedAux bits 0 r

/-- The loop of `LogReader.read_tally`, indexed by fuel.  The fuel
`8 * len(data) - pos + 1` used by `read_tally` below is exact: while a 1-bit is
read the cursor is strictly before the end of the buffer, so the measure
decreases by exactly one per iteration, and past the end `read_bool` returns 0
immediately. -/
def readTallyAux : Nat → LogReader → Nat × LogReader
  | 0, r => (0, r)
  | fuel + 1, r =>
    if (read_bool r).1 = 1 then
      ((readTallyAux fuel (read_bool r).2).1 + 1, (readTallyAux fuel (read_bool r).2).2)
    else
      (0, (read_bool r).2)

/-- `LogReader.read_tally`: `result = 0; while self.read_bool(): result += 1`. -/
def read_tally (r : LogReader) : Nat × LogReader :=
  readTallyAux (8 * r.data.length - r.pos + 1) r

/-- The loop of `LogReader.read_footer` computing `minimum`:
`while free < bits: minimum += 1 << free; free += 8`, unrolled over its
iteration count. -/
def footerGo : Nat → Nat → Nat
  | 0, _ => 0
  | n + 1, free => (1 <<< free) + footerGo n (free + 8)

/-- The `minimum` accumulated by the footer loop started at `free` with bound
`bits`. -/
def footerMin (free bits : Nat) : Nat :=
  footerGo ((bits - free + 7) / 8) free

/-- `LogReader.read_footer`:
`bits = self.read_fixed(2) << 3; free = (8 - (self.pos & 7)) & 7; bits |= free;`
then the `minimum` loop, then `return self.read_fixed(bits) + minimum`. -/
def read_footer (r : LogReader) : Nat × LogReader :=
  let p := read_fixed 2 r
  let bits0 := p.1 <<< 3
  let free := (8 - (p.2.pos &&& 7)) &&& 7
  let bits := bits0 ||| free
  let minimum := footerMin free bits
  let q := read_fixed bits p.2
  (q.1 + minimum, q.2)

/-! ### Basic facts about the cursor primitives -/

@[simp] theorem read_bool_snd (r : LogReader) : (read_bool r).2 = ⟨r.data, r.pos + 1⟩ := rfl

theorem read_bool_le_one (r : LogReader) : (read_bool r).1 ≤ 1 := by
  unfold read_bool
  split
  · exact Nat.zero_le 1
  · simpa using Nat.and_le_right (n := _) (m := 1)

theorem end_iff (r : LogReader) : end_ r = true ↔ 8 * r.data.length ≤ r.pos := by
  unfold end_
  rw [decide_eq_true_iff, Nat.shiftRight_eq_div_pow]
  constructor
  · intro h
    have := (Nat.le_div_iff_mul_le (by norm_num : (0 : ℕ) < 2 ^ 3)).mp h
    omega
  · intro h
    exact (Nat.le_div_iff_mul_le (by norm_num : (0 : ℕ) < 2 ^ 3)).mpr (by omega)

theorem not_end_pos_lt (r : LogReader) (h : end_ r = false) : r.pos < 8 * r.data.length := by
  have := end_iff r
  rcases Nat.lt_or_ge r.pos (8 * r.data.length) with h2 | h2
  · exact h2
  · rw [h] at this
    simp at this
    omega

theorem read_bool_one_not_end (r : LogReader) (h : (read_bool r).1 = 1) : end_ r = false := by
  by_contra hc
  have he : end_ r = true := by
    cases hend : end_ r
    · exact absurd hend hc
    · rfl
  unfold read_bool at h
  rw [he] at h
  simp at h

theorem readFixedAux_snd (bits : Nat) :
    ∀ acc r, (readFixedAux bits acc r).2 = ⟨r.data, r.pos + bits⟩ := by
  induction bits with
  | zero => intro acc r; rfl
  | succ b ih =>
    intro acc r
    rw [readFixedAux, ih]
    simp
    omega

@[simp] theorem read_fixed_snd (bits : Nat) (r : LogReader) :
    (read_fixed bits r).2 = ⟨r.data, r.pos + bits⟩ :=
  readFixedAux_snd bits 0 r

theorem readFixedAux_lt (bits : Nat) :
    ∀ acc r k, acc < 2 ^ k → (readFixedAux bits acc r).1 < 2 ^ (k + bits) := by
  induction bits with
  | zero => intro acc r k h; simpa using h
  | succ b ih =>
    intro acc r k h
    rw [readFixedAux]
    have hb := read_bool_le_one r
    have hrw : (acc <<< 1) ||| (read_bool r).1 = 2 * acc + (read_bool r).1 := by
      have h2 : (read_bool r).1 < 2 ^ 1 := by omega
      have := (Nat.mul_add_lt_is_or h2 acc).symm
      rw [Nat.shiftLeft_eq]
      simpa [Nat.mul_comm] using this
    rw [hrw]
    have hacc : 2 * acc + (read_bool r).1 < 2 ^ (k + 1) := by
      have : 2 ^ (k + 1) = 2 * 2 ^ k := by ring
      omega
    have := ih _ (read_bool r).2 (k + 1) hacc
    have heq : k + 1 + b = k + (b + 1) := by omega
    rw [heq] at this
    exact this

theorem read_fixed_lt (bits : Nat) (r : LogReader) : (read_fixed bits r).1 < 2 ^ bits := by
  have := readFixedAux_lt bits 0 r 0 (by norm_num)
  simpa using this

/-- The unfolding equation of `read_tally`, certifying that the fuel-indexed
embedding satisfies exactly the loop equation of the source. -/
theorem read_tally_eq (r : LogReader) :
    read_tally r =
      if (read_bool r).1 = 1 then
        ((read_tally (read_bool r).2).1 + 1, (read_tally (read_bool r).2).2)
      else
        (0, (read_bool r).2) := by
  unfold read_tally
  rw [readTallyAux]
  split
  · next h =>
    have hend := read_bool_one_not_end r h
    have hlt := not_end_pos_lt r hend
    have hfuel : 8 * r.data.length - r.pos = 8 * (read_bool r).2.data.length - (read_bool r).2.pos + 1 := by
      simp
      omega
    rw [hfuel]
  · rfl

theorem readTallyAux_data (fuel : Nat) :
    ∀ r, (readTallyAux fuel r).2.data = r.data := by
  induction fuel with
  | zero => intro r; rfl
  | succ f ih =>
    intro r
    rw [readTallyAux]
    split
    · exact ih (read_bool r).2
    · rfl

theorem readTallyAux_pos (fuel : Nat) :
    ∀ r, r.pos ≤ (readTallyAux fuel r).2.pos := by
  induction fuel with
  | zero => intro r; exact Nat.le_refl _
  | succ f ih =>
    intro r
    rw [readTallyAux]
    split
    · exact Nat.le_trans (Nat.le_succ _) (ih (read_bool r).2)
    · exact Nat.le_succ _

@[simp] theorem read_tally_data (r : LogReader) : (read_tally r).2.data = r.data :=
  readTallyAux_data _ r

theorem read_tally_pos (r : LogReader) : r.pos < (read_tally r).2.pos := by
  rw [read_tally_eq]
  split
  · have h1 := readTallyAux_pos (8 * (read_bool r).2.data.length - (read_bool r).2.pos + 1)
      (read_bool r).2
    exact Nat.lt_of_lt_of_le (Nat.lt_succ_self _) h1
  · exact Nat.lt_succ_self _

theorem read_tally_pos_le (r : LogReader) : r.pos ≤ (read_tally r).2.pos :=
  Nat.le_of_lt (read_tally_pos r)

/-- The footer `minimum` loop satisfies the loop equation of the source. -/
theorem footerMin_eq (free bits : Nat) :
    footerMin free bits =
      if free < bits then (1 <<< free) + footerMin (free + 8) bits else 0 := by
  unfold footerMin
  split
  · next h =>
    have hc : (bits - free + 7) / 8 = (bits - (free + 8) + 7) / 8 + 1 := by omega
    rw [hc, footerGo]
  · next h =>
    have hc : (bits - free + 7) / 8 = 0 := by omega
    rw [hc, footerGo]

@[simp] theorem read_footer_data (r : LogReader) : (read_footer r).2.data = r.data := by
  unfold read_footer
  simp

theorem read_footer_pos_le (r : LogReader) : r.pos ≤ (read_footer r).2.pos := by
  unfold read_footer
  simp
  omega

/-! ### C1: the biased varint (`read_footer`) -/

theorem and_seven (x : Nat) : x &&& 7 = x % 8 := by
  have : (7 : Nat) = 2 ^ 3 - 1 := by norm_num
  rw [this, Nat.and_pow_two_sub_one_eq_mod]

theorem shiftLeft3_lor (c b : Nat) (hb : b < 8) : (c <<< 3) ||| b = c * 8 + b := by
  have h8 : c <<< 3 = 2 ^ 3 * c := by
    rw [Nat.shiftLeft_eq]
    ring
  have hb' : b < 2 ^ 3 := by norm_num; omega
  rw [h8, ← Nat.mul_add_lt_is_or hb' c]
  ring

/-- C1. For every byte buffer and starting bit position, `read_footer` returns
exactly `read_fixed(total_bits) + bias`, where the 2-bit class selector `c`
gives `width_class = c * 8`, `align = (8 - (position mod 8)) mod 8` after the
selector is read, `total_bits = width_class + align`, and the bias starts from
`free = align` and, while `free < total_bits`, adds `2 ^ free` and increments
`free` by 8 (the loop embodied by `footerMin`). -/
theorem read_footer_is_biased_varint (r : LogReader) :
    read_footer r =
      ((read_fixed ((read_fixed 2 r).1 * 8 + (8 - (read_fixed 2 r).2.pos % 8) % 8) (read_fixed 2 r).2).1
         + footerMin ((8 - (read_fixed 2 r).2.pos % 8) % 8)
             ((read_fixed 2 r).1 * 8 + (8 - (read_fixed 2 r).2.pos % 8) % 8),
       (read_fixed ((read_fixed 2 r).1 * 8 + (8 - (read_fixed 2 r).2.pos % 8) % 8) (read_fixed 2 r).2).2) := by
  unfold read_footer
  have halign : (8 - ((read_fixed 2 r).2.pos &&& 7)) &&& 7 = (8 - (read_fixed 2 r).2.pos % 8) % 8 := by
    rw [and_seven, and_seven]
  have hlt : (8 - (read_fixed 2 r).2.pos % 8) % 8 < 8 := Nat.mod_lt _ (by norm_num)
  have hlor : ((read_fixed 2 r).1 <<< 3) ||| ((8 - (read_fixed 2 r).2.pos % 8) % 8)
      = (read_fixed 2 r).1 * 8 + (8 - (read_fixed 2 r).2.pos % 8) % 8 :=
    shiftLeft3_lor _ _ hlt
  simp only [halign, hlor]

/-! ### C2: the single-bit read and the end test -/

/-- C2. `read_bool` returns 0 past the end, otherwise bit `7 - pos % 8` of
byte `pos / 8`; it always advances the position by exactly one; and `end_` is
true exactly when `position ≥ 8 * buffer_length`.  In particular the read is
total past the end of the buffer. -/
theorem read_bool_spec (r : LogReader) :
    (read_bool r).2.pos = r.pos + 1 ∧
    (read_bool r).2.data = r.data ∧
    (end_ r = true ↔ 8 * r.data.length ≤ r.pos) ∧
    (read_bool r).1 =
      (if end_ r then 0 else (r.data.getD (r.pos / 8) 0 >>> (7 - r.pos % 8)) % 2) := by
  refine ⟨rfl, rfl, end_iff r, ?_⟩
  have h1 : r.pos >>> 3 = r.pos / 8 := by
    rw [Nat.shiftRight_eq_div_pow]
  unfold read_bool
  simp only [h1, and_seven, Nat.and_one_is_mod]

/-! ### C7: monotonicity and contiguity of the footer classes -/

/-- C7. For a fixed byte alignment `align` at the moment of the read, a larger
class selector never decreases the minimum decodable value
(`footerMin align (c * 8 + align)` is monotone in `c`), and each wider class's
range starts exactly where the previous class's range of `2 ^ total_bits`
values ends — so the four classes are contiguous and non-overlapping. -/
theorem footer_classes_contiguous (align : Nat) (h : align < 8) :
    (∀ c < 4, ∀ c2 ≤ c, footerMin align (c2 * 8 + align) ≤ footerMin align (c * 8 + align)) ∧
    (∀ c < 3, footerMin align ((c + 1) * 8 + align)
        = footerMin align (c * 8 + align) + 2 ^ (c * 8 + align)) := by
  interval_cases align <;> exact ⟨by decide, by decide⟩

theorem footer_classes_contiguous_witness :
    5 < 8 ∧
    ((∀ c < 4, ∀ c2 ≤ c, footerMin 5 (c2 * 8 + 5) ≤ footerMin 5 (c * 8 + 5)) ∧
     (∀ c < 3, footerMin 5 ((c + 1) * 8 + 5) = footerMin 5 (c * 8 + 5) + 2 ^ (c * 8 + 5))) :=
  ⟨by decide, footer_classes_contiguous 5 (by decide)⟩

/-! ### The player event decoder (`PlayerLogReader`) -/

/-- One decoded event record.  `team` is the value the Python code stores under
the `team` key: `_log_event` merges `get_player_info()` into every event dict,
overwriting any `team` keyword with the decoder's current `self.team` at the
moment of logging.  Constant per-player identity fields are omitted. -/
structure Event where
  event : String
  time : Nat
  team : Nat
  flag : Option Nat := none
  powers : Option Nat := none
  pup : Option Nat := none
  new_powers : Option Nat := none
  new_team : Option Nat := none
  old_team : Option Nat := none
deriving DecidableEq, Repr

/-- The per-frame values read by one iteration of the `decode_events` loop,
before `_log_events` runs.  `powerups` is the tally remaining after grants
(the Python code decrements `self.powerups` while granting). -/
structure Frame where
  new_team : Nat
  dropPop : Nat
  returns : Nat
  tags : Nat
  grab : Bool
  captures : Nat
  keep : Bool
  newFlag : Nat
  powerups : Nat
  powers_down : Nat
  powers_up : Nat
  togglePrevent : Nat
  toggleButton : Nat
  toggleBlock : Nat
  delta : Nat
deriving DecidableEq, Repr

/-- The mutable state of a `PlayerLogReader` during `decode_events`. -/
structure PState where
  r : LogReader
  team : Nat
  duration : Nat
  time : Nat
  flag : Nat
  powers : Nat
  prevent : Bool
  button : Bool
  block : Bool
  events : List Event
deriving DecidableEq, Repr

/-- Append one event (`self.events.append(...)`). -/
def emit (s : PState) (e : Event) : PState :=
  { s with events := s.events ++ [e] }

/-- The team-transition read at the top of the decode loop:
quit/switch when on a team, join when teamless, stay when the first bit is 0. -/
def readTeam (team : Nat) (r : LogReader) : Nat × LogReader :=
  let p := read_bool r
  if p.1 ≠ 0 then
    if team ≠ 0 then
      let q := read_bool p.2
      (if q.1 ≠ 0 then 0 else 3 - team, q.2)
    else
      let q := read_bool p.2
      (1 + q.1, q.2)
  else (team, p.2)

/-- `self.grab = (not self.flag) and self.read_bool()` — the bit is only
consumed when no flag is held. -/
def readGrab (flag : Nat) (r : LogReader) : Bool × LogReader :=
  if flag = 0 then
    let p := read_bool r
    (p.1 ≠ 0, p.2)
  else (false, r)

/-- The short-circuiting `keep` expression; the trailing bit is only consumed
when every earlier conjunct is true and both early disjuncts are false. -/
def readKeep (dropPop new_team team captures flag : Nat) (grab : Bool) (r : LogReader) :
    Bool × LogReader :=
  if dropPop ≠ 0 then (false, r)
  else if new_team = 0 then (false, r)
  else if ¬ (new_team = team ∨ team = 0) then (false, r)
  else if captures = 0 then (true, r)
  else if flag = 0 ∧ grab = false then (true, r)
  else
    let p := read_bool r
    (p.1 ≠ 0, p.2)

/-- `newFlag`: on a kept grab the flag kind is `1 + read_fixed(2)`, on an
unkept grab it is the temporary flag 5, otherwise the held flag. -/
def readNewFlag (grab keep : Bool) (flag : Nat) (r : LogReader) : Nat × LogReader :=
  if grab then
    if keep then
      let p := read_fixed 2 r
      (1 + p.1, p.2)
    else (5, r)
  else (flag, r)

/-- Result of the power-up read loop. -/
structure PupRes where
  powerups : Nat
  pdown : Nat
  pup : Nat
  r : LogReader
deriving DecidableEq, Repr

/-- One step of the power-up read loop at mask bit `i`. -/
def pupStep (powers : Nat) (st : PupRes) (i : Nat) : PupRes :=
  if powers &&& i ≠ 0 then
    let p := read_bool st.r
    if p.1 ≠ 0 then { st with pdown := st.pdown ||| i, r := p.2 }
    else { st with r := p.2 }
  else if st.powerups ≠ 0 then
    let p := read_bool st.r
    if p.1 ≠ 0 then { st with powerups := st.powerups - 1, pup := st.pup ||| i, r := p.2 }
    else { st with r := p.2 }
  else st

/-- `i = 1; while i < 16: ...; i <<= 1` — the four mask bits in order. -/
def pupLoop (powers powerups : Nat) (r : LogReader) : PupRes :=
  [1, 2, 4, 8].foldl (pupStep powers) ⟨powerups, 0, 0, r⟩

/-- All reads of one iteration of the `decode_events` loop, in source order. -/
def readFrame (s : PState) : Frame × LogReader :=
  let a1 := readTeam s.team s.r
  let a2 := read_bool a1.2
  let a3 := read_tally a2.2
  let a4 := read_tally a3.2
  let a5 := readGrab s.flag a4.2
  let a6 := read_tally a5.2
  let a7 := readKeep a2.1 a1.1 s.team a6.1 s.flag a5.1 a6.2
  let a8 := readNewFlag a5.1 a7.1 s.flag a7.2
  let a9 := read_tally a8.2
  let a10 := pupLoop s.powers a9.1 a9.2
  let a11 := read_bool a10.r
  let a12 := read_bool a11.2
  let a13 := read_bool a12.2
  let a14 := read_footer a13.2
  ({ new_team := a1.1, dropPop := a2.1, returns := a3.1, tags := a4.1,
     grab := a5.1, captures := a6.1, keep := a7.1, newFlag := a8.1,
     powerups := a10.powerups, powers_down := a10.pdown, powers_up := a10.pup,
     togglePrevent := a11.1, toggleButton := a12.1, toggleBlock := a13.1,
     delta := a14.1 }, a14.2)

/-! The stages of `_log_events`, in source order. -/

/-- Join tracking: `if ((not self.team) and self.new_team)`. -/
def stageJoin (s : PState) (f : Frame) : PState :=
  if s.team = 0 ∧ f.new_team ≠ 0 then
    let s1 := { s with team := f.new_team }
    let e : Event := { event := "join", time := s1.time, team := s1.team,
                       new_team := some s1.team }
    emit s1 e
  else s

/-- One `return` event per unit of the tally. -/
def stageReturns (s : PState) (f : Frame) : PState :=
  let e : Event := { event := "return", time := s.time, team := s.team,
                     flag := some s.flag, powers := some s.powers }
  { s with events := s.events ++ List.replicate f.returns e }

/-- One `tag` event per unit of the tally. -/
def stageTags (s : PState) (f : Frame) : PState :=
  let e : Event := { event := "tag", time := s.time, team := s.team,
                     flag := some s.flag, powers := some s.powers }
  { s with events := s.events ++ List.replicate f.tags e }

/-- On a grab, the held flag becomes `newFlag` and a `grab` event is logged. -/
def stageGrab (s : PState) (f : Frame) : PState :=
  if f.grab then
    let s1 := { s with flag := f.newFlag }
    let e : Event := { event := "grab", time := s1.time, team := s1.team,
                       flag := some s1.flag, powers := some s1.powers }
    emit s1 e
  else s

/-- The capture block: when `captures > 0` exactly one capture-type event is
logged (`flagless_capture` if `keep` or no flag is held, else `capture`, which
clears the flag and sets `keep = True`).  The second component is the updated
`self.keep`.  (The source also decrements its local `self.captures`, which no
later statement of `_log_events` reads.) -/
def stageCaptures (s : PState) (f : Frame) : PState × Bool :=
  if 0 < f.captures then
    if f.keep = true ∨ s.flag = 0 then
      let e : Event := { event := "flagless_capture", time := s.time, team := s.team,
                         flag := some s.flag, powers := some s.powers }
      (emit s e, f.keep)
    else
      let e : Event := { event := "capture", time := s.time, team := s.team,
                         flag := some s.flag, powers := some s.powers }
      ({ emit s e with flag := 0 }, true)
  else (s, f.keep)

/-- One step of the power_down/power_up logging loop at mask bit `i`. -/
def pupEmit (s : PState) (pdown pup i : Nat) : PState :=
  if pdown &&& i ≠ 0 then
    let s1 := { s with powers := s.powers ^^^ i }
    let e : Event := { event := "power_down", time := s1.time, team := s1.team,
                       flag := some s1.flag, pup := some i, new_powers := some s1.powers }
    emit s1 e
  else if pup &&& i ≠ 0 then
    let s1 := { s with powers := s.powers ||| i }
    let e : Event := { event := "power_up", time := s1.time, team := s1.team,
                       flag := some s1.flag, pup := some i, new_powers := some s1.powers }
    emit s1 e
  else s

/-- The power_down/power_up logging loop over the four mask bits. -/
def stagePowers (s : PState) (f : Frame) : PState :=
  [1, 2, 4, 8].foldl (fun t i => pupEmit t f.powers_down f.powers_up i) s

/-- One `duplicate_powerup` event per remaining ungranted unit. -/
def stageDup (s : PState) (f : Frame) : PState :=
  let e : Event := { event := "duplicate_powerup", time := s.time, team := s.team,
                     flag := some s.flag, powers := some s.powers }
  { s with events := s.events ++ List.replicate f.powerups e }

/-- The prevent toggle. -/
def stagePrevent (s : PState) (f : Frame) : PState :=
  if f.togglePrevent ≠ 0 then
    if s.prevent then
      let e : Event := { event := "prevent_stop", time := s.time, team := s.team,
                         flag := some s.flag, powers := some s.powers }
      { emit s e with prevent := false }
    else
      let e : Event := { event := "prevent_start", time := s.time, team := s.team,
                         flag := some s.flag, powers := some s.powers }
      { emit s e with prevent := true }
  else s

/-- The button toggle. -/
def stageButton (s : PState) (f : Frame) : PState :=
  if f.toggleButton ≠ 0 then
    if s.button then
      let e : Event := { event := "button_stop", time := s.time, team := s.team,
                         flag := some s.flag, powers := some s.powers }
      { emit s e with button := false }
    else
      let e : Event := { event := "button_start", time := s.time, team := s.team,
                         flag := some s.flag, powers := some s.powers }
      { emit s e with button := true }
  else s

/-- The block toggle. -/
def stageBlock (s : PState) (f : Frame) : PState :=
  if f.toggleBlock ≠ 0 then
    if s.block then
      let e : Event := { event := "block_stop", time := s.time, team := s.team,
                         flag := some s.flag, powers := some s.powers }
      { emit s e with block := false }
    else
      let e : Event := { event := "block_start", time := s.time, team := s.team,
                         flag := some s.flag, powers := some s.powers }
      { emit s e with block := true }
  else s

/-- Drop/pop: `drop` clears a held flag, `pop` is logged flagless (the `pop`
event carries no `flag` keyword in the source). -/
def stageDropPop (s : PState) (f : Frame) : PState :=
  if f.dropPop ≠ 0 then
    if s.flag ≠ 0 then
      let e : Event := { event := "drop", time := s.time, team := s.team,
                         flag := some s.flag, powers := some s.powers }
      { emit s e with flag := 0 }
    else
      let e : Event := { event := "pop", time := s.time, team := s.team,
                         powers := some s.powers }
      emit s e
  else s

/-- Team switch and quit.  On a quit only the power mask is cleared: `self.team`
is left unchanged.  On a switch the event's `new_team` keyword is written from
`self.team` before the update, exactly as in the source. -/
def stageTeam (s : PState) (f : Frame) : PState :=
  if f.new_team ≠ s.team then
    if f.new_team = 0 then
      let e : Event := { event := "quit", time := s.time, team := s.team,
                         flag := some s.flag, powers := some s.powers,
                         old_team := some s.team }
      { emit s e with powers := 0 }
    else
      let e : Event := { event := "switch", time := s.time, team := s.team,
                         flag := some s.flag, powers := some s.powers,
                         old_team := some s.team, new_team := some s.team }
      { emit s e with flag := 0, team := f.new_team }
  else s

/-- `self.time += (1 + self.read_footer())` followed by `self._log_events()`,
with the cursor left at `r`. -/
def applyFrame (s : PState) (f : Frame) (r : LogReader) : PState :=
  let s0 := { s with r := r, time := s.time + 1 + f.delta }
  let s1 := stageJoin s0 f
  let s2 := stageReturns s1 f
  let s3 := stageTags s2 f
  let s4 := stageGrab s3 f
  let s5 := (stageCaptures s4 f).1
  let s6 := stagePowers s5 f
  let s7 := stageDup s6 f
  let s8 := stagePrevent s7 f
  let s9 := stageButton s8 f
  let s10 := stageBlock s9 f
  let s11 := stageDropPop s10 f
  stageTeam s11 f

/-- One full iteration of the decode loop. -/
def decodeFrame (s : PState) : PState :=
  let fr := readFrame s
  applyFrame s fr.1 fr.2

/-- The decode loop, indexed by fuel; `decodeLoop` supplies enough fuel, and
`decodeLoop_eq` below certifies the loop equation. -/
def decodeLoopAux : Nat → PState → PState
  | 0, s => s
  | fuel + 1, s => if end_ s.r then s else decodeLoopAux fuel (decodeFrame s)

/-- `while not self.end(): ...`. -/
def decodeLoop (s : PState) : PState :=
  decodeLoopAux (8 * s.r.data.length - s.r.pos + 1) s

/-- The state at entry of `decode_events`: metadata-initialised fields, and a
`start` event if the configured starting team is non-zero. -/
def initState (data : List Nat) (team duration : Nat) : PState :=
  let s0 : PState :=
    { r := ⟨data, 0⟩, team := team, duration := duration, time := 0, flag := 0,
      powers := 0, prevent := false, button := false, block := false, events := [] }
  if team ≠ 0 then
    emit s0 ({ event := "start", time := 0, team := team })
  else s0

/-- `decode_events`: run the loop, log the final `end` event at
`time = duration`, and sort the events by time (Python `sorted` is stable). -/
def decode_events (data : List Nat) (team duration : Nat) : List Event :=
  let s1 := decodeLoop (initState data team duration)
  let e : Event := { event := "end", time := s1.duration, team := s1.team,
                     flag := some s1.flag, powers := some s1.powers }
  (emit s1 e).events.mergeSort (fun a b => a.time ≤ b.time)


/-! ### Cursor monotonicity through one frame -/

@[simp] theorem readTeam_data (team : Nat) (r : LogReader) :
    (readTeam team r).2.data = r.data := by
  simp only [readTeam]
  split
  · split <;> simp
  · simp

theorem readTeam_pos (team : Nat) (r : LogReader) : r.pos < (readTeam team r).2.pos := by
  simp only [readTeam]
  split
  · split <;> simp <;> omega
  · simp

@[simp] theorem readGrab_data (flag : Nat) (r : LogReader) :
    (readGrab flag r).2.data = r.data := by
  simp only [readGrab]
  split <;> simp

theorem readGrab_pos (flag : Nat) (r : LogReader) : r.pos ≤ (readGrab flag r).2.pos := by
  simp only [readGrab]
  split <;> simp

@[simp] theorem readKeep_data (dropPop new_team team captures flag : Nat) (grab : Bool)
    (r : LogReader) : (readKeep dropPop new_team team captures flag grab r).2.data = r.data := by
  simp only [readKeep]
  split
  · rfl
  · split
    · rfl
    · split
      · rfl
      · split
        · rfl
        · split <;> simp

theorem readKeep_pos (dropPop new_team team captures flag : Nat) (grab : Bool)
    (r : LogReader) : r.pos ≤ (readKeep dropPop new_team team captures flag grab r).2.pos := by
  simp only [readKeep]
  split
  · exact Nat.le_refl _
  · split
    · exact Nat.le_refl _
    · split
      · exact Nat.le_refl _
      · split
        · exact Nat.le_refl _
        · split
          · exact Nat.le_refl _
          · simp

@[simp] theorem readNewFlag_data (grab keep : Bool) (flag : Nat) (r : LogReader) :
    (readNewFlag grab keep flag r).2.data = r.data := by
  simp only [readNewFlag]
  split
  · split <;> simp
  · rfl

theorem readNewFlag_pos (grab keep : Bool) (flag : Nat) (r : LogReader) :
    r.pos ≤ (readNewFlag grab keep flag r).2.pos := by
  simp only [readNewFlag]
  split
  · split <;> simp
  · exact Nat.le_refl _

@[simp] theorem pupStep_data (powers : Nat) (st : PupRes) (i : Nat) :
    (pupStep powers st i).r.data = st.r.data := by
  simp only [pupStep]
  split
  · split <;> simp
  · split
    · split <;> simp
    · rfl

theorem pupStep_pos (powers : Nat) (st : PupRes) (i : Nat) :
    st.r.pos ≤ (pupStep powers st i).r.pos := by
  simp only [pupStep]
  split
  · split <;> simp
  · split
    · split <;> simp
    · exact Nat.le_refl _

@[simp] theorem pupLoop_data (powers powerups : Nat) (r : LogReader) :
    (pupLoop powers powerups r).r.data = r.data := by
  simp only [pupLoop, List.foldl]
  simp

theorem pupLoop_pos (powers powerups : Nat) (r : LogReader) :
    r.pos ≤ (pupLoop powers powerups r).r.pos := by
  simp only [pupLoop, List.foldl]
  refine Nat.le_trans ?_ (pupStep_pos _ _ 8)
  refine Nat.le_trans ?_ (pupStep_pos _ _ 4)
  refine Nat.le_trans ?_ (pupStep_pos _ _ 2)
  exact pupStep_pos powers ⟨powerups, 0, 0, r⟩ 1

/-! Named intermediate results of `readFrame`, one per read of the source
loop; each is definitionally the corresponding step of `readFrame`. -/

/-- Team transition read. -/
def fr1 (s : PState) : Nat × LogReader := readTeam s.team s.r
/-- `dropPop` read. -/
def fr2 (s : PState) : Nat × LogReader := read_bool (fr1 s).2
/-- `returns` tally. -/
def fr3 (s : PState) : Nat × LogReader := read_tally (fr2 s).2
/-- `tags` tally. -/
def fr4 (s : PState) : Nat × LogReader := read_tally (fr3 s).2
/-- `grab` read. -/
def fr5 (s : PState) : Bool × LogReader := readGrab s.flag (fr4 s).2
/-- `captures` tally. -/
def fr6 (s : PState) : Nat × LogReader := read_tally (fr5 s).2
/-- `keep` read. -/
def fr7 (s : PState) : Bool × LogReader :=
  readKeep (fr2 s).1 (fr1 s).1 s.team (fr6 s).1 s.flag (fr5 s).1 (fr6 s).2
/-- `newFlag` read. -/
def fr8 (s : PState) : Nat × LogReader := readNewFlag (fr5 s).1 (fr7 s).1 s.flag (fr7 s).2
/-- `powerups` tally. -/
def fr9 (s : PState) : Nat × LogReader := read_tally (fr8 s).2
/-- Power-up loop. -/
def fr10 (s : PState) : PupRes := pupLoop s.powers (fr9 s).1 (fr9 s).2
/-- `togglePrevent` read. -/
def fr11 (s : PState) : Nat × LogReader := read_bool (fr10 s).r
/-- `toggleButton` read. -/
def fr12 (s : PState) : Nat × LogReader := read_bool (fr11 s).2
/-- `toggleBlock` read. -/
def fr13 (s : PState) : Nat × LogReader := read_bool (fr12 s).2
/-- Footer read. -/
def fr14 (s : PState) : Nat × LogReader := read_footer (fr13 s).2

theorem readFrame_eq (s : PState) :
    readFrame s =
      ({ new_team := (fr1 s).1, dropPop := (fr2 s).1, returns := (fr3 s).1, tags := (fr4 s).1,
         grab := (fr5 s).1, captures := (fr6 s).1, keep := (fr7 s).1, newFlag := (fr8 s).1,
         powerups := (fr10 s).powerups, powers_down := (fr10 s).pdown, powers_up := (fr10 s).pup,
         togglePrevent := (fr11 s).1, toggleButton := (fr12 s).1, toggleBlock := (fr13 s).1,
         delta := (fr14 s).1 }, (fr14 s).2) := rfl

@[simp] theorem readFrame_data (s : PState) : (readFrame s).2.data = s.r.data := by
  rw [readFrame_eq]
  show (fr14 s).2.data = s.r.data
  simp only [fr14, fr13, fr12, fr11, fr10, fr9, fr8, fr7, fr6, fr5, fr4, fr3, fr2, fr1]
  simp

theorem readFrame_pos (s : PState) : s.r.pos < (readFrame s).2.pos := by
  have h1 : s.r.pos < (fr1 s).2.pos := readTeam_pos s.team s.r
  have h2 : (fr1 s).2.pos < (fr2 s).2.pos := Nat.lt_succ_self _
  have h3 : (fr2 s).2.pos ≤ (fr3 s).2.pos := read_tally_pos_le (fr2 s).2
  have h4 : (fr3 s).2.pos ≤ (fr4 s).2.pos := read_tally_pos_le (fr3 s).2
  have h5 : (fr4 s).2.pos ≤ (fr5 s).2.pos := readGrab_pos s.flag (fr4 s).2
  have h6 : (fr5 s).2.pos ≤ (fr6 s).2.pos := read_tally_pos_le (fr5 s).2
  have h7 : (fr6 s).2.pos ≤ (fr7 s).2.pos :=
    readKeep_pos (fr2 s).1 (fr1 s).1 s.team (fr6 s).1 s.flag (fr5 s).1 (fr6 s).2
  have h8 : (fr7 s).2.pos ≤ (fr8 s).2.pos :=
    readNewFlag_pos (fr5 s).1 (fr7 s).1 s.flag (fr7 s).2
  have h9 : (fr8 s).2.pos ≤ (fr9 s).2.pos := read_tally_pos_le (fr8 s).2
  have h10 : (fr9 s).2.pos ≤ (fr10 s).r.pos := pupLoop_pos s.powers (fr9 s).1 (fr9 s).2
  have h11 : (fr10 s).r.pos < (fr11 s).2.pos := Nat.lt_succ_self _
  have h12 : (fr11 s).2.pos < (fr12 s).2.pos := Nat.lt_succ_self _
  have h13 : (fr12 s).2.pos < (fr13 s).2.pos := Nat.lt_succ_self _
  have h14 : (fr13 s).2.pos ≤ (fr14 s).2.pos := read_footer_pos_le (fr13 s).2
  have hfin : (readFrame s).2.pos = (fr14 s).2.pos := by rw [readFrame_eq]
  omega

/-! ### The stages do not touch the cursor -/

@[simp] theorem emit_r (s : PState) (e : Event) : (emit s e).r = s.r := rfl

@[simp] theorem stageJoin_r (s : PState) (f : Frame) : (stageJoin s f).r = s.r := by
  simp only [stageJoin]
  split <;> rfl

@[simp] theorem stageReturns_r (s : PState) (f : Frame) : (stageReturns s f).r = s.r := rfl

@[simp] theorem stageTags_r (s : PState) (f : Frame) : (stageTags s f).r = s.r := rfl

@[simp] theorem stageGrab_r (s : PState) (f : Frame) : (stageGrab s f).r = s.r := by
  simp only [stageGrab]
  split <;> rfl

@[simp] theorem stageCaptures_r (s : PState) (f : Frame) : (stageCaptures s f).1.r = s.r := by
  simp only [stageCaptures]
  split
  · split <;> rfl
  · rfl

@[simp] theorem pupEmit_r (s : PState) (pdown pup i : Nat) : (pupEmit s pdown pup i).r = s.r := by
  simp only [pupEmit]
  split
  · rfl
  · split <;> rfl

@[simp] theorem stagePowers_r (s : PState) (f : Frame) : (stagePowers s f).r = s.r := by
  simp only [stagePowers, List.foldl]
  simp

@[simp] theorem stageDup_r (s : PState) (f : Frame) : (stageDup s f).r = s.r := rfl

@[simp] theorem stagePrevent_r (s : PState) (f : Frame) : (stagePrevent s f).r = s.r := by
  simp only [stagePrevent]
  split
  · split <;> rfl
  · rfl

@[simp] theorem stageButton_r (s : PState) (f : Frame) : (stageButton s f).r = s.r := by
  simp only [stageButton]
  split
  · split <;> rfl
  · rfl

@[simp] theorem stageBlock_r (s : PState) (f : Frame) : (stageBlock s f).r = s.r := by
  simp only [stageBlock]
  split
  · split <;> rfl
  · rfl

@[simp] theorem stageDropPop_r (s : PState) (f : Frame) : (stageDropPop s f).r = s.r := by
  simp only [stageDropPop]
  split
  · split <;> rfl
  · rfl

@[simp] theorem stageTeam_r (s : PState) (f : Frame) : (stageTeam s f).r = s.r := by
  simp only [stageTeam]
  split
  · split <;> rfl
  · rfl

@[simp] theorem applyFrame_r (s : PState) (f : Frame) (r : LogReader) :
    (applyFrame s f r).r = r := by
  simp only [applyFrame]
  simp

theorem decodeFrame_data (s : PState) : (decodeFrame s).r.data = s.r.data := by
  simp only [decodeFrame]
  simp

theorem decodeFrame_pos (s : PState) : s.r.pos < (decodeFrame s).r.pos := by
  have h := readFrame_pos s
  simp only [decodeFrame]
  rw [applyFrame_r]
  exact h

/-! ### The decode loop equation -/

theorem decodeLoopAux_congr :
    ∀ f1 f2 s, 8 * s.r.data.length - s.r.pos < f1 → 8 * s.r.data.length - s.r.pos < f2 →
      decodeLoopAux f1 s = decodeLoopAux f2 s := by
  intro f1
  induction f1 with
  | zero => intro f2 s h1 h2; omega
  | succ g ih =>
    intro f2 s h1 h2
    match f2, h2 with
    | k + 1, h2 =>
      rw [decodeLoopAux, decodeLoopAux]
      split
      · rfl
      · next hend =>
        have hendf : end_ s.r = false := by
          cases hE : end_ s.r
          · rfl
          · exact absurd hE hend
        have hlt := not_end_pos_lt s.r hendf
        have hd : (decodeFrame s).r.data.length = s.r.data.length := by
          rw [decodeFrame_data]
        have hp := decodeFrame_pos s
        exact ih k (decodeFrame s) (by omega) (by omega)

/-- The loop equation of `decode_events`: iterate `decodeFrame` while not at
the end of the buffer. -/
theorem decodeLoop_eq (s : PState) :
    decodeLoop s = if end_ s.r then s else decodeLoop (decodeFrame s) := by
  unfold decodeLoop
  rw [decodeLoopAux]
  split
  · rfl
  · next hend =>
    have hendf : end_ s.r = false := by
      cases hE : end_ s.r
      · rfl
      · exact absurd hE hend
    have hlt := not_end_pos_lt s.r hendf
    have hd : (decodeFrame s).r.data.length = s.r.data.length := by
      rw [decodeFrame_data]
    have hp := decodeFrame_pos s
    exact decodeLoopAux_congr _ _ (decodeFrame s) (by omega) (by omega)

theorem decodeLoopAux_end (fuel : Nat) :
    ∀ s, 8 * s.r.data.length - s.r.pos < fuel → end_ (decodeLoopAux fuel s).r = true := by
  induction fuel with
  | zero => intro s h; omega
  | succ g ih =>
    intro s h
    rw [decodeLoopAux]
    split
    · assumption
    · next hend =>
      have hendf : end_ s.r = false := by
        cases hE : end_ s.r
        · rfl
        · exact absurd hE hend
      have hlt := not_end_pos_lt s.r hendf
      have hd : (decodeFrame s).r.data.length = s.r.data.length := by
        rw [decodeFrame_data]
      have hp := decodeFrame_pos s
      exact ih (decodeFrame s) (by omega)

theorem decodeLoop_end (s : PState) : end_ (decodeLoop s).r = true := by
  unfold decodeLoop
  exact decodeLoopAux_end _ s (by omega)


/-! ### Which event kinds each stage emits -/

theorem stageJoin_countP (s : PState) (f : Frame) (p : Event → Bool)
    (h : ∀ t n, p { event := "join", time := t, team := n, new_team := some n } = false) :
    ((stageJoin s f).events).countP p = s.events.countP p := by
  simp only [stageJoin, emit]
  split
  · simp [List.countP_append, List.countP_cons, h]
  · rfl

theorem stageReturns_countP (s : PState) (f : Frame) (p : Event → Bool)
    (h : ∀ t n fl pw, p { event := "return", time := t, team := n, flag := some fl, powers := some pw } = false) :
    ((stageReturns s f).events).countP p = s.events.countP p := by
  simp only [stageReturns]
  simp [List.countP_append, List.countP_replicate, h]

theorem stageTags_countP (s : PState) (f : Frame) (p : Event → Bool)
    (h : ∀ t n fl pw, p { event := "tag", time := t, team := n, flag := some fl, powers := some pw } = false) :
    ((stageTags s f).events).countP p = s.events.countP p := by
  simp only [stageTags]
  simp [List.countP_append, List.countP_replicate, h]

theorem stageGrab_countP (s : PState) (f : Frame) (p : Event → Bool)
    (h : ∀ t n fl pw, p { event := "grab", time := t, team := n, flag := some fl, powers := some pw } = false) :
    ((stageGrab s f).events).countP p = s.events.countP p := by
  simp only [stageGrab, emit]
  split
  · simp [List.countP_append, List.countP_cons, h]
  · rfl

theorem stageCaptures_countP (s : PState) (f : Frame) (p : Event → Bool)
    (h1 : ∀ t n fl pw, p { event := "capture", time := t, team := n, flag := some fl, powers := some pw } = false)
    (h2 : ∀ t n fl pw, p { event := "flagless_capture", time := t, team := n, flag := some fl, powers := some pw } = false) :
    ((stageCaptures s f).1.events).countP p = s.events.countP p := by
  simp only [stageCaptures, emit]
  split
  · split
    · simp [List.countP_append, List.countP_cons, h2]
    · simp [List.countP_append, List.countP_cons, h1]
  · rfl

theorem pupEmit_countP (s : PState) (pdown pup i : Nat) (p : Event → Bool)
    (h1 : ∀ t n fl j np, p { event := "power_down", time := t, team := n, flag := some fl, pup := some j, new_powers := some np } = false)
    (h2 : ∀ t n fl j np, p { event := "power_up", time := t, team := n, flag := some fl, pup := some j, new_powers := some np } = false) :
    ((pupEmit s pdown pup i).events).countP p = s.events.countP p := by
  simp only [pupEmit, emit]
  split
  · simp [List.countP_append, List.countP_cons, h1]
  · split
    · simp [List.countP_append, List.countP_cons, h2]
    · rfl

theorem stagePowers_countP (s : PState) (f : Frame) (p : Event → Bool)
    (h1 : ∀ t n fl j np, p { event := "power_down", time := t, team := n, flag := some fl, pup := some j, new_powers := some np } = false)
    (h2 : ∀ t n fl j np, p { event := "power_up", time := t, team := n, flag := some fl, pup := some j, new_powers := some np } = false) :
    ((stagePowers s f).events).countP p = s.events.countP p := by
  simp only [stagePowers, List.foldl]
  rw [pupEmit_countP _ _ _ _ _ h1 h2, pupEmit_countP _ _ _ _ _ h1 h2,
    pupEmit_countP _ _ _ _ _ h1 h2, pupEmit_countP _ _ _ _ _ h1 h2]

theorem stageDup_countP (s : PState) (f : Frame) (p : Event → Bool)
    (h : ∀ t n fl pw, p { event := "duplicate_powerup", time := t, team := n, flag := some fl, powers := some pw } = false) :
    ((stageDup s f).events).countP p = s.events.countP p := by
  simp only [stageDup]
  simp [List.countP_append, List.countP_replicate, h]

theorem stagePrevent_countP (s : PState) (f : Frame) (p : Event → Bool)
    (h1 : ∀ t n fl pw, p { event := "prevent_stop", time := t, team := n, flag := some fl, powers := some pw } = false)
    (h2 : ∀ t n fl pw, p { event := "prevent_start", time := t, team := n, flag := some fl, powers := some pw } = false) :
    ((stagePrevent s f).events).countP p = s.events.countP p := by
  simp only [stagePrevent, emit]
  split
  · split
    · simp [List.countP_append, List.countP_cons, h1]
    · simp [List.countP_append, List.countP_cons, h2]
  · rfl

theorem stageButton_countP (s : PState) (f : Frame) (p : Event → Bool)
    (h1 : ∀ t n fl pw, p { event := "button_stop", time := t, team := n, flag := some fl, powers := some pw } = false)
    (h2 : ∀ t n fl pw, p { event := "button_start", time := t, team := n, flag := some fl, powers := some pw } = false) :
    ((stageButton s f).events).countP p = s.events.countP p := by
  simp only [stageButton, emit]
  split
  · split
    · simp [List.countP_append, List.countP_cons, h1]
    · simp [List.countP_append, List.countP_cons, h2]
  · rfl

theorem stageBlock_countP (s : PState) (f : Frame) (p : Event → Bool)
    (h1 : ∀ t n fl pw, p { event := "block_stop", time := t, team := n, flag := some fl, powers := some pw } = false)
    (h2 : ∀ t n fl pw, p { event := "block_start", time := t, team := n, flag := some fl, powers := some pw } = false) :
    ((stageBlock s f).events).countP p = s.events.countP p := by
  simp only [stageBlock, emit]
  split
  · split
    · simp [List.countP_append, List.countP_cons, h1]
    · simp [List.countP_append, List.countP_cons, h2]
  · rfl

theorem stageDropPop_countP (s : PState) (f : Frame) (p : Event → Bool)
    (h1 : ∀ t n fl pw, p { event := "drop", time := t, team := n, flag := some fl, powers := some pw } = false)
    (h2 : ∀ t n pw, p { event := "pop", time := t, team := n, powers := some pw } = false) :
    ((stageDropPop s f).events).countP p = s.events.countP p := by
  simp only [stageDropPop, emit]
  split
  · split
    · simp [List.countP_append, List.countP_cons, h1]
    · simp [List.countP_append, List.countP_cons, h2]
  · rfl

theorem stageTeam_countP (s : PState) (f : Frame) (p : Event → Bool)
    (h1 : ∀ t n fl pw, p { event := "quit", time := t, team := n, flag := some fl, powers := some pw, old_team := some n } = false)
    (h2 : ∀ t n fl pw, p { event := "switch", time := t, team := n, flag := some fl, powers := some pw, old_team := some n, new_team := some n } = false) :
    ((stageTeam s f).events).countP p = s.events.countP p := by
  simp only [stageTeam, emit]
  split
  · split
    · simp [List.countP_append, List.countP_cons, h1]
    · simp [List.countP_append, List.countP_cons, h2]
  · rfl

/-- A predicate that is false on every event kind a decode frame can log is
preserved by a full frame. -/
theorem decodeFrame_countP (s : PState) (p : Event → Bool)
    (hjoin : ∀ t n, p { event := "join", time := t, team := n, new_team := some n } = false)
    (hret : ∀ t n fl pw, p { event := "return", time := t, team := n, flag := some fl, powers := some pw } = false)
    (htag : ∀ t n fl pw, p { event := "tag", time := t, team := n, flag := some fl, powers := some pw } = false)
    (hgrab : ∀ t n fl pw, p { event := "grab", time := t, team := n, flag := some fl, powers := some pw } = false)
    (hcap : ∀ t n fl pw, p { event := "capture", time := t, team := n, flag := some fl, powers := some pw } = false)
    (hfcap : ∀ t n fl pw, p { event := "flagless_capture", time := t, team := n, flag := some fl, powers := some pw } = false)
    (hpd : ∀ t n fl j np, p { event := "power_down", time := t, team := n, flag := some fl, pup := some j, new_powers := some np } = false)
    (hpu : ∀ t n fl j np, p { event := "power_up", time := t, team := n, flag := some fl, pup := some j, new_powers := some np } = false)
    (hdup : ∀ t n fl pw, p { event := "duplicate_powerup", time := t, team := n, flag := some fl, powers := some pw } = false)
    (hpstop : ∀ t n fl pw, p { event := "prevent_stop", time := t, team := n, flag := some fl, powers := some pw } = false)
    (hpstart : ∀ t n fl pw, p { event := "prevent_start", time := t, team := n, flag := some fl, powers := some pw } = false)
    (hbstop : ∀ t n fl pw, p { event := "button_stop", time := t, team := n, flag := some fl, powers := some pw } = false)
    (hbstart : ∀ t n fl pw, p { event := "button_start", time := t, team := n, flag := some fl, powers := some pw } = false)
    (hlstop : ∀ t n fl pw, p { event := "block_stop", time := t, team := n, flag := some fl, powers := some pw } = false)
    (hlstart : ∀ t n fl pw, p { event := "block_start", time := t, team := n, flag := some fl, powers := some pw } = false)
    (hdrop : ∀ t n fl pw, p { event := "drop", time := t, team := n, flag := some fl, powers := some pw } = false)
    (hpop : ∀ t n pw, p { event := "pop", time := t, team := n, powers := some pw } = false)
    (hquit : ∀ t n fl pw, p { event := "quit", time := t, team := n, flag := some fl, powers := some pw, old_team := some n } = false)
    (hsw : ∀ t n fl pw, p { event := "switch", time := t, team := n, flag := some fl, powers := some pw, old_team := some n, new_team := some n } = false) :
    ((decodeFrame s).events).countP p = s.events.countP p := by
  simp only [decodeFrame, applyFrame]
  rw [stageTeam_countP _ _ _ hquit hsw, stageDropPop_countP _ _ _ hdrop hpop,
    stageBlock_countP _ _ _ hlstop hlstart, stageButton_countP _ _ _ hbstop hbstart,
    stagePrevent_countP _ _ _ hpstop hpstart, stageDup_countP _ _ _ hdup,
    stagePowers_countP _ _ _ hpd hpu, stageCaptures_countP _ _ _ hcap hfcap,
    stageGrab_countP _ _ _ hgrab, stageTags_countP _ _ _ htag,
    stageReturns_countP _ _ _ hret, stageJoin_countP _ _ _ hjoin]


/-! ### Fields the stages leave untouched -/

@[simp] theorem emit_duration (s : PState) (e : Event) : (emit s e).duration = s.duration := rfl

@[simp] theorem stageJoin_duration (s : PState) (f : Frame) :
    (stageJoin s f).duration = s.duration := by
  simp only [stageJoin]
  split <;> rfl

@[simp] theorem stageReturns_duration (s : PState) (f : Frame) :
    (stageReturns s f).duration = s.duration := rfl

@[simp] theorem stageTags_duration (s : PState) (f : Frame) :
    (stageTags s f).duration = s.duration := rfl

@[simp] theorem stageGrab_duration (s : PState) (f : Frame) :
    (stageGrab s f).duration = s.duration := by
  simp only [stageGrab]
  split <;> rfl

@[simp] theorem stageCaptures_duration (s : PState) (f : Frame) :
    (stageCaptures s f).1.duration = s.duration := by
  simp only [stageCaptures]
  split
  · split <;> rfl
  · rfl

@[simp] theorem pupEmit_duration (s : PState) (pdown pup i : Nat) :
    (pupEmit s pdown pup i).duration = s.duration := by
  simp only [pupEmit]
  split
  · rfl
  · split <;> rfl

@[simp] theorem stagePowers_duration (s : PState) (f : Frame) :
    (stagePowers s f).duration = s.duration := by
  simp only [stagePowers, List.foldl]
  simp

@[simp] theorem stageDup_duration (s : PState) (f : Frame) :
    (stageDup s f).duration = s.duration := rfl

@[simp] theorem stagePrevent_duration (s : PState) (f : Frame) :
    (stagePrevent s f).duration = s.duration := by
  simp only [stagePrevent]
  split
  · split <;> rfl
  · rfl

@[simp] theorem stageButton_duration (s : PState) (f : Frame) :
    (stageButton s f).duration = s.duration := by
  simp only [stageButton]
  split
  · split <;> rfl
  · rfl

@[simp] theorem stageBlock_duration (s : PState) (f : Frame) :
    (stageBlock s f).duration = s.duration := by
  simp only [stageBlock]
  split
  · split <;> rfl
  · rfl

@[simp] theorem stageDropPop_duration (s : PState) (f : Frame) :
    (stageDropPop s f).duration = s.duration := by
  simp only [stageDropPop]
  split
  · split <;> rfl
  · rfl

@[simp] theorem stageTeam_duration (s : PState) (f : Frame) :
    (stageTeam s f).duration = s.duration := by
  simp only [stageTeam]
  split
  · split <;> rfl
  · rfl

@[simp] theorem applyFrame_duration (s : PState) (f : Frame) (r : LogReader) :
    (applyFrame s f r).duration = s.duration := by
  simp only [applyFrame]
  simp

theorem decodeFrame_duration (s : PState) : (decodeFrame s).duration = s.duration := by
  simp only [decodeFrame]
  simp

theorem decodeLoopAux_duration (fuel : Nat) :
    ∀ s, (decodeLoopAux fuel s).duration = s.duration := by
  induction fuel with
  | zero => intro s; rfl
  | succ g ih =>
    intro s
    rw [decodeLoopAux]
    split
    · rfl
    · rw [ih (decodeFrame s), decodeFrame_duration]

theorem decodeLoop_duration (s : PState) : (decodeLoop s).duration = s.duration :=
  decodeLoopAux_duration _ s

/-! ### C3: termination and the single end event -/

theorem decodeFrame_end_countP (s : PState) :
    ((decodeFrame s).events).countP (fun e => e.event == "end")
      = s.events.countP (fun e => e.event == "end") := by
  refine decodeFrame_countP s _ ?_ ?_ ?_ ?_ ?_ ?_ ?_ ?_ ?_ ?_ ?_ ?_ ?_ ?_ ?_ ?_ ?_ ?_ ?_ <;>
    · intros
      rfl

theorem decodeLoopAux_end_countP (fuel : Nat) :
    ∀ s, ((decodeLoopAux fuel s).events).countP (fun e => e.event == "end")
      = s.events.countP (fun e => e.event == "end") := by
  induction fuel with
  | zero => intro s; rfl
  | succ g ih =>
    intro s
    rw [decodeLoopAux]
    split
    · rfl
    · rw [ih (decodeFrame s), decodeFrame_end_countP]

theorem initState_end_countP (data : List Nat) (team duration : Nat) :
    ((initState data team duration).events).countP (fun e => e.event == "end") = 0 := by
  simp only [initState, emit]
  split <;> simp

@[simp] theorem initState_duration (data : List Nat) (team duration : Nat) :
    (initState data team duration).duration = duration := by
  simp only [initState, emit]
  split <;> rfl

theorem decodeLoop_end_countP (data : List Nat) (team duration : Nat) :
    ((decodeLoop (initState data team duration)).events).countP (fun e => e.event == "end")
      = 0 := by
  rw [decodeLoop, decodeLoopAux_end_countP, initState_end_countP]

/-- C3.  For every finite byte payload and metadata, `decode_events` is a total
function (the embedding is structurally recursive, so decoding terminates
without failing), the decode loop runs exactly until `end_` holds on the
cursor, and the decoded list contains exactly one `end` event, carrying
`time = duration`. -/
theorem decode_events_terminates (data : List Nat) (team duration : Nat) :
    (((decode_events data team duration).filter (fun e => e.event == "end")).map
        (fun e => e.time)) = [duration] ∧
    end_ (decodeLoop (initState data team duration)).r = true := by
  constructor
  · have hfil : (decode_events data team duration).filter (fun e => e.event == "end")
        = [{ event := "end", time := (decodeLoop (initState data team duration)).duration,
             team := (decodeLoop (initState data team duration)).team,
             flag := some (decodeLoop (initState data team duration)).flag,
             powers := some (decodeLoop (initState data team duration)).powers }] := by
      unfold decode_events
      apply List.perm_singleton.mp
      refine List.Perm.trans (List.Perm.filter _ (List.mergeSort_perm _ _)) ?_
      rw [emit]
      simp only [List.filter_append]
      have hnil : ((decodeLoop (initState data team duration)).events).filter
          (fun e => e.event == "end") = [] := by
        rw [← List.length_eq_zero, ← List.countP_eq_length_filter]
        exact decodeLoop_end_countP data team duration
      rw [hnil]
      simp
    rw [hfil]
    simp only [List.map]
    rw [decodeLoop_duration, initState_duration]
  · exact decodeLoop_end (initState data team duration)


/-! ### C4: the capture block emits exactly one capture-type event -/

theorem stageCaptures_cap_countP (s : PState) (f : Frame) :
    ((stageCaptures s f).1.events).countP
        (fun e => e.event == "capture" || e.event == "flagless_capture")
      = s.events.countP (fun e => e.event == "capture" || e.event == "flagless_capture")
        + (if 0 < f.captures then 1 else 0) := by
  simp only [stageCaptures, emit]
  split
  · split <;> simp [List.countP_append]
  · simp

theorem applyFrame_cap_countP (s : PState) (f : Frame) (r : LogReader) :
    ((applyFrame s f r).events).countP
        (fun e => e.event == "capture" || e.event == "flagless_capture")
      = s.events.countP (fun e => e.event == "capture" || e.event == "flagless_capture")
        + (if 0 < f.captures then 1 else 0) := by
  simp only [applyFrame]
  rw [stageTeam_countP _ _ _ (by intros; rfl) (by intros; rfl),
    stageDropPop_countP _ _ _ (by intros; rfl) (by intros; rfl),
    stageBlock_countP _ _ _ (by intros; rfl) (by intros; rfl),
    stageButton_countP _ _ _ (by intros; rfl) (by intros; rfl),
    stagePrevent_countP _ _ _ (by intros; rfl) (by intros; rfl),
    stageDup_countP _ _ _ (by intros; rfl),
    stagePowers_countP _ _ _ (by intros; rfl) (by intros; rfl),
    stageCaptures_cap_countP,
    stageGrab_countP _ _ _ (by intros; rfl),
    stageTags_countP _ _ _ (by intros; rfl),
    stageReturns_countP _ _ _ (by intros; rfl),
    stageJoin_countP _ _ _ (by intros; rfl)]

/-- C4.  In a decoded frame whose `captures` tally is positive, whatever its
magnitude, exactly one capture-type event is appended over the whole frame;
and at the capture block itself (state `t` being the decoder state when the
block runs) the event is `flagless_capture` when `keep` holds or no flag is
held, else `capture`, which clears the held flag and forces `keep` to true. -/
theorem capture_block_single_event (s t : PState) (f : Frame) (r : LogReader)
    (h : 0 < f.captures) :
    ((applyFrame s f r).events).countP
        (fun e => e.event == "capture" || e.event == "flagless_capture")
      = s.events.countP (fun e => e.event == "capture" || e.event == "flagless_capture") + 1 ∧
    (stageCaptures t f).1.events = t.events ++
      [{ event := (if f.keep = true ∨ t.flag = 0 then "flagless_capture" else "capture"),
         time := t.time, team := t.team, flag := some t.flag, powers := some t.powers }] ∧
    (stageCaptures t f).1.flag = (if f.keep = true ∨ t.flag = 0 then t.flag else 0) ∧
    (stageCaptures t f).2 = (if f.keep = true ∨ t.flag = 0 then f.keep else true) := by
  refine ⟨?_, ?_⟩
  · rw [applyFrame_cap_countP]
    rw [if_pos h]
  · by_cases hc : f.keep = true ∨ t.flag = 0
    · simp [stageCaptures, emit, h, hc]
    · simp [stageCaptures, emit, h, hc]

theorem capture_block_single_event_witness :
    (0 : Nat) < (2 : Nat) ∧
    ((stageCaptures
        (⟨⟨[], 0⟩, 1, 60, 7, 1, 0, false, false, false, []⟩ : PState)
        (⟨0, 0, 0, 0, false, 2, false, 5, 0, 0, 0, 0, 0, 0, 0⟩ : Frame)).1.flag
      = (if (⟨0, 0, 0, 0, false, 2, false, 5, 0, 0, 0, 0, 0, 0, 0⟩ : Frame).keep = true ∨
            (⟨⟨[], 0⟩, 1, 60, 7, 1, 0, false, false, false, []⟩ : PState).flag = 0
         then (⟨⟨[], 0⟩, 1, 60, 7, 1, 0, false, false, false, []⟩ : PState).flag else 0)) :=
  ⟨by decide,
   (capture_block_single_event
      (⟨⟨[], 0⟩, 1, 60, 7, 1, 0, false, false, false, []⟩ : PState)
      (⟨⟨[], 0⟩, 1, 60, 7, 1, 0, false, false, false, []⟩ : PState)
      (⟨0, 0, 0, 0, false, 2, false, 5, 0, 0, 0, 0, 0, 0, 0⟩ : Frame)
      ⟨[], 0⟩ (by decide)).2.2.1⟩


/-! ### C8: the held-flag state follows the legal none-held-none cycle -/

@[simp] theorem stageJoin_flag (s : PState) (f : Frame) : (stageJoin s f).flag = s.flag := by
  simp only [stageJoin]
  split <;> rfl

@[simp] theorem stageReturns_flag (s : PState) (f : Frame) : (stageReturns s f).flag = s.flag :=
  rfl

@[simp] theorem stageTags_flag (s : PState) (f : Frame) : (stageTags s f).flag = s.flag := rfl

/-- C8.  Flag transitions are legal: a grab is decoded only when no flag is
held (and establishes a non-zero held flag); the `join`/`return`/`tag` stages
before the capture block do not change the held flag; a `capture` event is
emitted only while a flag is held and clears it (a held flag yields no
`flagless_capture` miscount); a `drop` is emitted only while a flag is held
and clears it; and a `pop` is emitted only when no flag is held. -/
theorem flag_legal_cycle (s t : PState) (f : Frame) :
    ((readFrame s).1.grab = true → s.flag = 0) ∧
    ((readFrame s).1.grab = true → (readFrame s).1.newFlag ≠ 0) ∧
    ((stageJoin t f).flag = t.flag) ∧
    ((stageReturns t f).flag = t.flag) ∧
    ((stageTags t f).flag = t.flag) ∧
    (f.grab = true → (stageGrab t f).flag = f.newFlag ∧
      (stageGrab t f).events = t.events ++
        [{ event := "grab", time := t.time, team := t.team,
           flag := some f.newFlag, powers := some t.powers }]) ∧
    (t.flag = 0 → ((stageCaptures t f).1.events).countP (fun e => e.event == "capture")
      = t.events.countP (fun e => e.event == "capture")) ∧
    (((stageCaptures t f).1.events).countP (fun e => e.event == "capture")
        ≠ t.events.countP (fun e => e.event == "capture") →
      t.flag ≠ 0 ∧ (stageCaptures t f).1.flag = 0) ∧
    (((stageDropPop t f).events).countP (fun e => e.event == "drop")
        ≠ t.events.countP (fun e => e.event == "drop") →
      t.flag ≠ 0 ∧ (stageDropPop t f).flag = 0) ∧
    (((stageDropPop t f).events).countP (fun e => e.event == "pop")
        ≠ t.events.countP (fun e => e.event == "pop") → t.flag = 0) := by
  refine ⟨?_, ?_, stageJoin_flag t f, rfl, rfl, ?_, ?_, ?_, ?_, ?_⟩
  · intro h
    by_cases hf : s.flag = 0
    · exact hf
    · exfalso
      have h5 : (fr5 s).1 = false := by
        simp [fr5, readGrab, hf]
      have hgr : (readFrame s).1.grab = (fr5 s).1 := rfl
      rw [hgr, h5] at h
      cases h
  · intro h
    have hgr : (fr5 s).1 = true := h
    have hnf : (readFrame s).1.newFlag = (fr8 s).1 := rfl
    rw [hnf]
    simp only [fr8, readNewFlag, hgr, if_true]
    split <;> simp
  · intro hg
    simp [stageGrab, emit, hg]
  · intro ht
    by_cases hc : 0 < f.captures
    · simp [stageCaptures, emit, hc, ht, List.countP_append]
    · simp [stageCaptures, emit, hc]
  · intro hne
    by_cases hc : 0 < f.captures
    · by_cases hk : f.keep = true ∨ t.flag = 0
      · exfalso
        apply hne
        simp [stageCaptures, emit, hc, hk, List.countP_append]
      · refine ⟨?_, ?_⟩
        · intro hf
          exact hk (Or.inr hf)
        · simp [stageCaptures, emit, hc, hk]
    · exfalso
      apply hne
      simp [stageCaptures, emit, hc]
  · intro hne
    by_cases hd : f.dropPop ≠ 0
    · by_cases hf : t.flag ≠ 0
      · refine ⟨hf, ?_⟩
        simp [stageDropPop, emit, hd, hf]
      · exfalso
        apply hne
        simp [stageDropPop, emit, hd, hf, List.countP_append]
    · exfalso
      apply hne
      simp [stageDropPop, emit, hd]
  · intro hne
    by_cases hd : f.dropPop ≠ 0
    · by_cases hf : t.flag ≠ 0
      · exfalso
        apply hne
        simp [stageDropPop, emit, hd, hf, List.countP_append]
      · simpa using hf
    · exfalso
      apply hne
      simp [stageDropPop, emit, hd]

/-! ### C10: a quit clears the power mask but leaves the stored team -/

@[simp] theorem stageReturns_team (s : PState) (f : Frame) : (stageReturns s f).team = s.team :=
  rfl

@[simp] theorem stageTags_team (s : PState) (f : Frame) : (stageTags s f).team = s.team := rfl

@[simp] theorem stageGrab_team (s : PState) (f : Frame) : (stageGrab s f).team = s.team := by
  simp only [stageGrab]
  split <;> rfl

@[simp] theorem stageCaptures_team (s : PState) (f : Frame) :
    (stageCaptures s f).1.team = s.team := by
  simp only [stageCaptures]
  split
  · split <;> rfl
  · rfl

@[simp] theorem pupEmit_team (s : PState) (pdown pup i : Nat) :
    (pupEmit s pdown pup i).team = s.team := by
  simp only [pupEmit]
  split
  · rfl
  · split <;> rfl

@[simp] theorem stagePowers_team (s : PState) (f : Frame) :
    (stagePowers s f).team = s.team := by
  simp only [stagePowers, List.foldl]
  simp

@[simp] theorem stageDup_team (s : PState) (f : Frame) : (stageDup s f).team = s.team := rfl

@[simp] theorem stagePrevent_team (s : PState) (f : Frame) :
    (stagePrevent s f).team = s.team := by
  simp only [stagePrevent]
  split
  · split <;> rfl
  · rfl

@[simp] theorem stageButton_team (s : PState) (f : Frame) :
    (stageButton s f).team = s.team := by
  simp only [stageButton]
  split
  · split <;> rfl
  · rfl

@[simp] theorem stageBlock_team (s : PState) (f : Frame) :
    (stageBlock s f).team = s.team := by
  simp only [stageBlock]
  split
  · split <;> rfl
  · rfl

@[simp] theorem stageDropPop_team (s : PState) (f : Frame) :
    (stageDropPop s f).team = s.team := by
  simp only [stageDropPop]
  split
  · split <;> rfl
  · rfl

theorem stageJoin_team0 (s : PState) (f : Frame) (h : f.new_team = 0) :
    (stageJoin s f).team = s.team := by
  simp [stageJoin, h]

theorem stageTeam_team0 (s : PState) (f : Frame) (h : f.new_team = 0) :
    (stageTeam s f).team = s.team := by
  simp only [stageTeam, h]
  split
  · split
    · rfl
    · next hc => simp at hc
  · rfl

theorem applyFrame_team0 (s : PState) (f : Frame) (r : LogReader) (h : f.new_team = 0) :
    (applyFrame s f r).team = s.team := by
  simp only [applyFrame]
  rw [stageTeam_team0 _ _ h]
  simp
  rw [stageJoin_team0 _ _ h]

/-- C10.  A quit frame (`new_team = 0` while on a team) logs a `quit` event
carrying the old team, clears the power mask, and leaves the decoder's stored
team unchanged; over a whole frame with `new_team = 0` the stored team is
unchanged (so the final `end` event reports the pre-quit team); and whenever
the stored team is non-zero, the team-transition read only yields the
on-a-team outcomes quit (0), switch (`3 - team`) or stay (`team`) — never the
join branch. -/
theorem quit_clears_powers_keeps_team (s t : PState) (f : Frame) (r : LogReader) :
    (f.new_team = 0 → t.team ≠ 0 →
      (stageTeam t f).team = t.team ∧ (stageTeam t f).powers = 0 ∧
      (stageTeam t f).events = t.events ++
        [{ event := "quit", time := t.time, team := t.team, flag := some t.flag,
           powers := some t.powers, old_team := some t.team }]) ∧
    (f.new_team = 0 → (applyFrame t f r).team = t.team) ∧
    (s.team ≠ 0 → (readFrame s).1.new_team = 0 ∨ (readFrame s).1.new_team = 3 - s.team ∨
      (readFrame s).1.new_team = s.team) := by
  refine ⟨?_, fun h => applyFrame_team0 t f r h, ?_⟩
  · intro h0 ht
    refine ⟨?_, ?_, ?_⟩ <;> simp [stageTeam, emit, h0, Ne.symm ht]
  · intro ht
    have hnt : (readFrame s).1.new_team = (readTeam s.team s.r).1 := rfl
    rw [hnt]
    by_cases h1 : (read_bool s.r).1 ≠ 0
    · by_cases h2 : (read_bool (⟨s.r.data, s.r.pos + 1⟩ : LogReader)).1 ≠ 0
      · simp [readTeam, h1, h2, ht]
      · simp [readTeam, h1, h2, ht]
    · simp [readTeam, h1]


/-! ### The match aggregator: running-score annotation (`add_current_team_captures`) -/

/-- An event as the aggregator sees it: the fields `add_current_team_captures`
reads (`event`, `team`) and the `score_team_..._current` keys it writes,
modelled as a key/value list (`ann`) mirroring the dict keys. -/
structure AEvent where
  event : String
  team : Nat
  ann : List (Nat × Nat)
deriving DecidableEq, Repr

/-- Python dict assignment `d[k] = v`: overwrite an existing key in place,
otherwise append the new key at the end. -/
def setKey (m : List (Nat × Nat)) (k v : Nat) : List (Nat × Nat) :=
  if m.any (fun q => q.1 == k) then m.map (fun q => if q.1 = k then (k, v) else q)
  else m ++ [(k, v)]

/-- `for team in team_caps: event[f"score_team_..."] = team_caps[team]`. -/
def updateAll (m : List (Nat × Nat)) (c : List (Nat × Nat)) : List (Nat × Nat) :=
  c.foldl (fun acc q => setKey acc q.1 q.2) m

/-- `team_caps[current_team] += 1`. -/
def bumpTeam (caps : List (Nat × Nat)) (t : Nat) : List (Nat × Nat) :=
  caps.map (fun q => if q.1 = t then (q.1, q.2 + 1) else q)

/-- The event walk of `add_current_team_captures`: bump the capturing team
(on a `capture` event) and attach the whole current counter map to the event. -/
def annotate (caps : List (Nat × Nat)) : List AEvent → List AEvent × List (Nat × Nat)
  | [] => ([], caps)
  | e :: rest =>
    let caps1 := if e.event = "capture" then bumpTeam caps e.team else caps
    let e1 := { e with ann := updateAll e.ann caps1 }
    let p := annotate caps1 rest
    (e1 :: p.1, p.2)

/-- `add_current_team_captures`: discover the team set from the events,
initialise all counters to zero, walk the events. -/
def add_current_team_captures (match_events : List AEvent) :
    List AEvent × List (Nat × Nat) :=
  let all_teams := (match_events.map (fun e => e.team)).dedup
  let team_caps := all_teams.map (fun t => (t, 0))
  annotate team_caps match_events

/-- Every entry of `m` at key `k` carries value `v`. -/
def allKV (m : List (Nat × Nat)) (k v : Nat) : Prop :=
  ∀ q ∈ m, q.1 = k → q.2 = v

theorem setKey_allKV_self (m : List (Nat × Nat)) (k v : Nat) : allKV (setKey m k v) k v := by
  unfold setKey allKV
  split
  · intro q hq hk
    rcases List.mem_map.mp hq with ⟨q0, hq0, hmap⟩
    by_cases hc : q0.1 = k
    · rw [if_pos hc] at hmap
      rw [← hmap]
    · rw [if_neg hc] at hmap
      rw [← hmap] at hk
      exact absurd hk hc
  · intro q hq hk
    rcases List.mem_append.mp hq with hq1 | hq1
    · next hno =>
      exfalso
      apply hno
      rw [List.any_eq_true]
      exact ⟨q, hq1, by simp [hk]⟩
    · rcases List.mem_singleton.mp hq1 with rfl
      rfl

theorem setKey_contains_self (m : List (Nat × Nat)) (k v : Nat) :
    (setKey m k v).any (fun q => q.1 == k) = true := by
  unfold setKey
  split
  · next hyes =>
    rw [List.any_eq_true] at hyes ⊢
    rcases hyes with ⟨q, hq, hqk⟩
    refine ⟨(k, v), ?_, by simp⟩
    rcases List.mem_map with _
    apply List.mem_map.mpr
    refine ⟨q, hq, ?_⟩
    have : q.1 = k := by simpa using hqk
    rw [if_pos this]
  · rw [List.any_eq_true]
    exact ⟨(k, v), List.mem_append.mpr (Or.inr (List.mem_singleton.mpr rfl)), by simp⟩

theorem setKey_preserves_allKV (m : List (Nat × Nat)) (k v k2 v2 : Nat) (hne : k2 ≠ k)
    (h : allKV m k v) : allKV (setKey m k2 v2) k v := by
  unfold setKey
  split
  · intro q hq hk
    rcases List.mem_map.mp hq with ⟨q0, hq0, hmap⟩
    by_cases hc : q0.1 = k2
    · rw [if_pos hc] at hmap
      rw [← hmap] at hk
      exact absurd hk hne
    · rw [if_neg hc] at hmap
      rw [← hmap] at hk ⊢
      exact h q0 hq0 hk
  · intro q hq hk
    rcases List.mem_append.mp hq with hq1 | hq1
    · exact h q hq1 hk
    · rcases List.mem_singleton.mp hq1 with rfl
      exact absurd hk hne

theorem setKey_preserves_contains (m : List (Nat × Nat)) (k k2 v2 : Nat)
    (h : m.any (fun q => q.1 == k) = true) :
    (setKey m k2 v2).any (fun q => q.1 == k) = true := by
  unfold setKey
  rw [List.any_eq_true] at h
  rcases h with ⟨q, hq, hqk⟩
  have hk : q.1 = k := by simpa using hqk
  split
  · rw [List.any_eq_true]
    by_cases hc : q.1 = k2
    · refine ⟨(k2, v2), List.mem_map.mpr ⟨q, hq, by rw [if_pos hc]⟩, ?_⟩
      simp [← hc, hk]
    · exact ⟨q, List.mem_map.mpr ⟨q, hq, by rw [if_neg hc]⟩, by simp [hk]⟩
  · rw [List.any_eq_true]
    exact ⟨q, List.mem_append.mpr (Or.inl hq), by simp [hk]⟩

theorem updateAll_preserves (c : List (Nat × Nat)) :
    ∀ m k v, k ∉ c.map Prod.fst → allKV m k v → m.any (fun q => q.1 == k) = true →
      allKV (updateAll m c) k v ∧ (updateAll m c).any (fun q => q.1 == k) = true := by
  induction c with
  | nil => intro m k v _ h1 h2; exact ⟨h1, h2⟩
  | cons q0 c ih =>
    intro m k v hk h1 h2
    have hne : q0.1 ≠ k := by
      intro hh
      exact hk (by simp [← hh])
    have hk2 : k ∉ c.map Prod.fst := by
      intro hh
      exact hk (by simp [hh])
    exact ih (setKey m q0.1 q0.2) k v hk2
      (setKey_preserves_allKV m k v q0.1 q0.2 hne h1)
      (setKey_preserves_contains m k q0.1 q0.2 h2)

theorem setKey_id (m : List (Nat × Nat)) (k v : Nat) (h1 : allKV m k v)
    (h2 : m.any (fun q => q.1 == k) = true) : setKey m k v = m := by
  unfold setKey
  rw [if_pos h2]
  conv_rhs => rw [← List.map_id m]
  apply List.map_congr_left
  intro q hq
  by_cases hc : q.1 = k
  · rw [if_pos hc]
    have := h1 q hq hc
    cases q with
    | mk a b =>
      simp at hc this
      rw [hc, this]
      rfl
  · rw [if_neg hc]
    rfl

theorem updateAll_idem (c : List (Nat × Nat)) :
    ∀ m, (c.map Prod.fst).Nodup → updateAll (updateAll m c) c = updateAll m c := by
  induction c with
  | nil => intro m _; rfl
  | cons q0 c ih =>
    intro m hnd
    rw [List.map_cons] at hnd
    have hnd2 : (c.map Prod.fst).Nodup := (List.nodup_cons.mp hnd).2
    have hk : q0.1 ∉ c.map Prod.fst := (List.nodup_cons.mp hnd).1
    show updateAll (setKey (updateAll (setKey m q0.1 q0.2) c) q0.1 q0.2) c
        = updateAll (setKey m q0.1 q0.2) c
    have hpres := updateAll_preserves c (setKey m q0.1 q0.2) q0.1 q0.2 hk
      (setKey_allKV_self m q0.1 q0.2) (setKey_contains_self m q0.1 q0.2)
    rw [setKey_id _ _ _ hpres.1 hpres.2]
    exact ih (setKey m q0.1 q0.2) hnd2

theorem bumpTeam_keys (caps : List (Nat × Nat)) (t : Nat) :
    (bumpTeam caps t).map Prod.fst = caps.map Prod.fst := by
  unfold bumpTeam
  rw [List.map_map]
  apply List.map_congr_left
  intro q hq
  by_cases hc : q.1 = t
  · simp [hc]
  · simp [hc]

theorem annotate_map_team (evs : List AEvent) :
    ∀ caps, ((annotate caps evs).1).map (fun e => e.team) = evs.map (fun e => e.team) := by
  induction evs with
  | nil => intro caps; rfl
  | cons e rest ih =>
    intro caps
    rw [annotate]
    simp only [List.map_cons]
    rw [ih]

theorem annotate_idem (evs : List AEvent) :
    ∀ caps, (caps.map Prod.fst).Nodup →
      annotate caps (annotate caps evs).1 = annotate caps evs := by
  induction evs with
  | nil => intro caps _; rfl
  | cons e rest ih =>
    intro caps hnd
    rw [annotate]
    conv_lhs => rw [annotate]
    have hcaps1 : (if ({ e with
        ann := updateAll e.ann (if e.event = "capture" then bumpTeam caps e.team else caps)
      } : AEvent).event = "capture"
        then bumpTeam caps ({ e with
          ann := updateAll e.ann (if e.event = "capture" then bumpTeam caps e.team else caps)
        } : AEvent).team else caps)
        = (if e.event = "capture" then bumpTeam caps e.team else caps) := rfl
    simp only [hcaps1]
    have hnd1 : (((if e.event = "capture" then bumpTeam caps e.team else caps)).map
        Prod.fst).Nodup := by
      split
      · rw [bumpTeam_keys]
        exact hnd
      · exact hnd
    have hup := updateAll_idem _ e.ann hnd1
    have hrest := ih _ hnd1
    rw [hrest]
    simp only [hup]

/-- C6.  Running-score annotation is idempotent: applying
`add_current_team_captures` to its own output re-derives exactly the same
per-event annotations and the same final team-capture totals. -/
theorem add_current_team_captures_idem (match_events : List AEvent) :
    add_current_team_captures (add_current_team_captures match_events).1
      = add_current_team_captures match_events := by
  unfold add_current_team_captures
  rw [annotate_map_team]
  apply annotate_idem
  rw [List.map_map]
  have : (Prod.fst ∘ fun t => ((t, 0) : Nat × Nat)) = id := rfl
  rw [this, List.map_id]
  exact List.nodup_dedup _


/-! ### The match aggregator: winner resolution (`add_winner_to_scoreboard`) -/

/-- The scoreboard fields winner resolution touches. -/
structure Scoreboard where
  team : Nat
  final_team_score : Option Nat := none
  win_loss : Option Rat := none
deriving DecidableEq, Repr

/-- The per-player body of the `for player in match_scoreboards` loop:
`final_team_score = team_caps[player_team]` and the 1 / 0.5 / 0 cascade over
the other teams' scores. -/
def winnerEntry (team_caps : List (Nat × Nat)) (player : Scoreboard) : Scoreboard :=
  let player_team := player.team
  let myScore := (team_caps.lookup player_team).getD 0
  let others := (team_caps.filter (fun q => q.1 != player_team)).map Prod.snd
  { player with
    final_team_score := some myScore,
    win_loss := some (if others.all (fun sc => decide (sc < myScore)) then (1 : Rat)
      else if others.all (fun sc => sc == myScore) then (1 : Rat)/2 else 0) }

/-- `add_winner_to_scoreboard`. -/
def add_winner_to_scoreboard (match_scoreboards : List Scoreboard)
    (team_caps : List (Nat × Nat)) : List Scoreboard :=
  match_scoreboards.map (winnerEntry team_caps)

/-- C5 counterexample.  With a single team (no other teams), the outcome is 1
while "the total equals every other team's total" holds vacuously, so the
claimed biconditional "outcome = 0.5 iff the total equals every other team's
total" is false as stated. -/
theorem add_winner_half_iff_fails :
    ¬ (((add_winner_to_scoreboard [{ team := 1 }] [(1, 0)]).map (fun q => q.win_loss)
          = [some ((1 : Rat)/2)]) ↔
       (∀ sc ∈ (([((1 : Nat), (0 : Nat))].filter (fun q => q.1 != 1)).map Prod.snd),
          sc = 0)) := by
  intro h
  have hA := h.mpr (by intro sc hsc; simp at hsc)
  have h1 : (add_winner_to_scoreboard [{ team := 1 }] [(1, 0)]).map (fun q => q.win_loss)
      = [some (1 : Rat)] := rfl
  rw [h1] at hA
  have h2 : (1 : Rat) = 1/2 := by
    have h3 := congrArg (fun l => l.headD none) hA
    simpa using h3
  norm_num at h2

/-- C5 (amended).  Winner resolution maps each scoreboard through
`winnerEntry`: `final_team_score` becomes the player's team total `k`; the
outcome is one of 1, 0.5, 0; it is 1 iff the total strictly exceeds every
other team's total; and it is 0.5 iff there is at least one other team and
the total equals every other team's total (0 otherwise). -/
theorem add_winner_resolution (team_caps : List (Nat × Nat)) (player : Scoreboard) (k : Nat)
    (h : team_caps.lookup player.team = some k) :
    (winnerEntry team_caps player).final_team_score = some k ∧
    ((winnerEntry team_caps player).win_loss = some 1 ∨
     (winnerEntry team_caps player).win_loss = some ((1 : Rat)/2) ∨
     (winnerEntry team_caps player).win_loss = some 0) ∧
    ((winnerEntry team_caps player).win_loss = some 1 ↔
      ∀ sc ∈ (team_caps.filter (fun q => q.1 != player.team)).map Prod.snd, sc < k) ∧
    ((winnerEntry team_caps player).win_loss = some ((1 : Rat)/2) ↔
      ((team_caps.filter (fun q => q.1 != player.team)).map Prod.snd ≠ [] ∧
       ∀ sc ∈ (team_caps.filter (fun q => q.1 != player.team)).map Prod.snd, sc = k)) := by
  simp only [winnerEntry]
  rw [h]
  simp only [Option.getD_some]
  set others := (team_caps.filter (fun q => q.1 != player.team)).map Prod.snd with hoth
  by_cases h1 : others.all (fun sc => decide (sc < k)) = true
  · rw [if_pos h1]
    refine ⟨trivial, Or.inl rfl, ?_, ?_⟩
    · constructor
      · intro _ sc hsc
        exact of_decide_eq_true (List.all_eq_true.mp h1 sc hsc)
      · intro _
        rfl
    · constructor
      · intro hbad
        exfalso
        have hb : (1 : Rat) = 1/2 := by
          have := congrArg (fun o => o.getD 0)
            (show (some (1 : Rat)) = some ((1 : Rat)/2) from hbad)
          simpa using this
        norm_num at hb
      · rintro ⟨hne, hall⟩
        exfalso
        rcases List.exists_mem_of_ne_nil others hne with ⟨sc, hsc⟩
        have ha := of_decide_eq_true (List.all_eq_true.mp h1 sc hsc)
        have hb := hall sc hsc
        omega
  · rw [if_neg h1]
    by_cases h2 : others.all (fun sc => sc == k) = true
    · rw [if_pos h2]
      refine ⟨trivial, Or.inr (Or.inl rfl), ?_, ?_⟩
      · constructor
        · intro hbad
          exfalso
          have hb : ((1 : Rat)/2) = 1 := by
            have := congrArg (fun o => o.getD 0)
              (show (some ((1 : Rat)/2)) = some (1 : Rat) from hbad)
            simpa using this
          norm_num at hb
        · intro hall
          exfalso
          apply h1
          rw [List.all_eq_true]
          intro sc hsc
          exact decide_eq_true (hall sc hsc)
      · constructor
        · intro _
          constructor
          · intro hnil
            apply h1
            rw [hnil]
            rfl
          · intro sc hsc
            have := List.all_eq_true.mp h2 sc hsc
            simpa using this
        · intro _
          rfl
    · rw [if_neg h2]
      refine ⟨trivial, Or.inr (Or.inr rfl), ?_, ?_⟩
      · constructor
        · intro hbad
          exfalso
          have hb : (0 : Rat) = 1 := by
            have := congrArg (fun o => o.getD 0)
              (show (some (0 : Rat)) = some (1 : Rat) from hbad)
            simpa using this
          norm_num at hb
        · intro hall
          exfalso
          apply h1
          rw [List.all_eq_true]
          intro sc hsc
          exact decide_eq_true (hall sc hsc)
      · constructor
        · intro hbad
          exfalso
          have hb : (0 : Rat) = 1/2 := by
            have := congrArg (fun o => o.getD 0)
              (show (some (0 : Rat)) = some ((1 : Rat)/2) from hbad)
            simpa using this
          norm_num at hb
        · rintro ⟨hne, hall⟩
          exfalso
          apply h2
          rw [List.all_eq_true]
          intro sc hsc
          have := hall sc hsc
          simp [this]


theorem add_winner_resolution_witness :
    ([((1 : Nat), (2 : Nat)), (2, 1)].lookup
        ({ team := 1 } : Scoreboard).team = some 2) ∧
    (winnerEntry [((1 : Nat), (2 : Nat)), (2, 1)] { team := 1 }).final_team_score = some 2 :=
  ⟨by decide,
   (add_winner_resolution [((1 : Nat), (2 : Nat)), (2, 1)] { team := 1 } 2 (by decide)).1⟩

/-! ### C9: power-up grant counts on the scoreboard -/

/-- `PlayerLogReader._count_pups`: count `power_up` events whose `pup` field is
the given kind.  (The source's `target_event` parameter is unused in its body;
the event name is hard-coded.) -/
def count_pups (events : List Event) (target_pup : Nat) : Nat :=
  (events.filter (fun e => e.event == "power_up" && e.pup == some target_pup)).length

/-- `pup_all_count = pup_jj_count + pup_rb_count + pup_tp_count` — the
scoreboard totals the juke-juice (1), rolling-bomb (2) and tagpro (4) kinds
only; the top-speed kind (8) is not counted. -/
def pup_all_count (events : List Event) : Nat :=
  count_pups events 1 + count_pups events 2 + count_pups events 4

/-- C9 counterexample.  A sequence with a single top-speed `power_up` event
has one `power_up` event but a total grant count of zero, so the claimed
equality between the scoreboard total and the number of `power_up` events is
false as stated (and no per-kind count is derived for top-speed). -/
theorem pup_total_misses_topspeed :
    ¬ (pup_all_count [{ event := "power_up", time := 0, team := 1, pup := some 8 }]
        = ([({ event := "power_up", time := 0, team := 1, pup := some 8 } : Event)].filter
            (fun e => e.event == "power_up")).length) := by
  decide

/-- C9 (amended).  The scoreboard's total power-up grant count equals the
number of `power_up` events whose kind is juke-juice (1), rolling-bomb (2) or
tagpro (4); these three per-kind counts are derived and top-speed (8) grants
are not counted. -/
theorem pup_all_count_eq (events : List Event) :
    pup_all_count events
      = (events.filter (fun e => e.event == "power_up" &&
          (e.pup == some 1 || e.pup == some 2 || e.pup == some 4))).length := by
  unfold pup_all_count count_pups
  rw [← List.countP_eq_length_filter, ← List.countP_eq_length_filter,
    ← List.countP_eq_length_filter, ← List.countP_eq_length_filter]
  induction events with
  | nil => rfl
  | cons e rest ih =>
    rw [List.countP_cons, List.countP_cons, List.countP_cons, List.countP_cons]
    cases hb0 : e.event == "power_up" <;>
      cases hb1 : e.pup == some 1 <;>
        cases hb2 : e.pup == some 2 <;>
          cases hb4 : e.pup == some 4 <;>
            simp_all <;> omega

end TagPro
